import Mathlib

/-!
# DemoGoWithAzureStorage: the two quick start workflows

A shallow embedding of `blob_storage.go` and `table_storage.go`.

Both programs are straight-line orchestration of calls into the Go standard
library and the Azure storage SDKs.  Every call that leaves the program (the
storage service, the local file system, standard input, the clock and the
random source) is answered by an explicit environment record, and a run of
`main` is the list of observable events it produced together with the way it
ended.  Go strings and byte slices are byte lists.
-/

/-! ## Go values shared by the two programs -/

/-- A Go `string` or `[]byte`: a sequence of bytes. -/
abbrev GoString := List UInt8

/-- Bytes of a string literal of the source, in UTF-8 as Go stores it. -/
def str (s : String) : GoString := s.data.flatMap String.utf8EncodeChar

/-- A Go `error` value, as far as the programs can tell errors apart: the type
assertion `err.(azblob.StorageError)` succeeds exactly on `storage`. -/
inductive GoError where
  | storage (serviceCode : GoString) (message : GoString)
  | plain (message : GoString)
deriving DecidableEq

/-- The text of an error, `err.Error()`. -/
def GoError.Error : GoError → GoString
  | .storage _ message => message
  | .plain message => message

/-- How a run stops when `main` does not return: `log.Fatal` (message on
standard error, then `os.Exit(1)`), a Go run-time panic, or a call that never
returns. -/
inductive Halt where
  | fatal
  | panic
  | blocked
deriving DecidableEq

/-- A run of a piece of the program: the events it produced, in order, and
either the value it returned or the way the process stopped. -/
structure Run (ε : Type) (α : Type) where
  trace : List ε
  val : Except Halt α

/-- Sequencing of two pieces of a run: the second piece runs only when the
first returned. -/
def Run.bind {ε α β : Type} (x : Run ε α) (f : α → Run ε β) : Run ε β :=
  match x.val with
  | .error h => ⟨x.trace, .error h⟩
  | .ok a => ⟨x.trace ++ (f a).trace, (f a).val⟩

instance (ε : Type) : Monad (Run ε) where
  pure a := ⟨[], .ok a⟩
  bind := Run.bind

/-- One observable event. -/
def emit {ε : Type} (e : ε) : Run ε Unit := ⟨[e], .ok ()⟩

/-- The process stops here. -/
def halt {ε α : Type} (h : Halt) : Run ε α := ⟨[], .error h⟩

/-- Whether the run ended by `main` returning (exit status 0). -/
def Run.returned {ε : Type} (r : Run ε Unit) : Bool :=
  match r.val with
  | .ok _ => true
  | .error _ => false

/-- Whether the run ended in the given way instead of returning. -/
def Run.halted {ε : Type} (r : Run ε Unit) (h : Halt) : Bool :=
  match r.val with
  | .ok _ => false
  | .error k => decide (k = h)

/-! ## Standard library: `strconv.Itoa`, `math/rand`, `fmt.Printf` -/

/-- The ASCII digit of `d < 10`. -/
def digitByte (d : Nat) : UInt8 := UInt8.ofNat (48 + d)

/-- Decimal digits of `n`, most significant first, in front of `acc`. -/
def formatDecimal : Nat → Nat → GoString → GoString
  | 0, _, acc => acc
  | fuel + 1, n, acc =>
    if n / 10 = 0 then digitByte (n % 10) :: acc
    else formatDecimal fuel (n / 10) (digitByte (n % 10) :: acc)

/-- Go `strconv.Itoa`: the decimal text of an integer, with a leading `-` for a
negative one. -/
def Itoa (i : Int) : GoString :=
  if i < 0 then 45 :: formatDecimal (i.natAbs + 1) i.natAbs []
  else formatDecimal (i.natAbs + 1) i.natAbs []

/-- Go `(*rand.Rand).Int63`: the 64 bits drawn from the source with the top bit
masked off. -/
def Int63 (bits : Nat) : Int := Int.ofNat (bits % 2 ^ 63)

/-- Go `(*rand.Rand).Int` on a 64-bit platform: `int(uint(r.Int63()))`. -/
def randInt (bits : Nat) : Int := Int63 bits

/-- Go `fmt.Printf(format)` with no operand: text is copied as it stands up to
the first `%`; what the verbs of a format turn into without operands is left to
`verbs`. -/
def Printf0 (verbs : GoString → GoString) (format : GoString) : GoString :=
  if (37 : UInt8) ∈ format then verbs format else format

/-- The value of a decimal digit string. -/
def decimalValue (s : GoString) : Nat :=
  s.foldl (fun acc b => 10 * acc + (b.toNat - 48)) 0

/-- An ASCII decimal digit. -/
def isDigit (b : UInt8) : Bool := decide (48 ≤ b.toNat ∧ b.toNat ≤ 57)

/-- An ASCII lowercase letter. -/
def isLower (b : UInt8) : Bool := decide (97 ≤ b.toNat ∧ b.toNat ≤ 122)

namespace BlobStorage

/-! ## `blob_storage.go` -/

/-- SDK `azblob.Marker`: a pointer to a continuation string, `nil` in the zero
value `azblob.Marker{}`. -/
abbrev Marker := Option GoString

/-- SDK `Marker.NotDone`: true for the zero value and for every non-empty
continuation string, false only for the empty string the service returns with
the final segment. -/
def Marker.NotDone (m : Marker) : Bool :=
  match m with
  | none => true
  | some s => decide (s ≠ [])

/-- SDK constant `azblob.ServiceCodeContainerAlreadyExists`. -/
def ServiceCodeContainerAlreadyExists : GoString := str "ContainerAlreadyExists"

/-- SDK `*azblob.ListBlobsResponse`, the part `main` reads: the continuation
marker and the names in `Blobs.Blob`. -/
structure ListBlobsResponse where
  NextMarker : Marker
  Blobs : List GoString
deriving DecidableEq

/-- Standard input: the bytes that arrive, and whether the stream then ends
(otherwise a read that still waits for more never returns). -/
structure Stdin where
  pending : GoString
  closed : Bool
deriving DecidableEq

/-- Observable events of the blob workflow.  A call event records the arguments
the program passed and the error the call returned. -/
inductive Event where
  | stdout (text : GoString)
  | fatalLog (err : GoError)
  | containerCreate (container : GoString) (err : Option GoError)
  | writeFile (name : GoString) (data : GoString) (perm : Nat) (err : Option GoError)
  | openFile (name : GoString) (err : Option GoError)
  | upload (blob : GoString) (content : GoString) (blockSize parallelism : Nat)
      (err : Option GoError)
  | listBlobs (marker : Marker) (err : Option GoError)
  | download (blob : GoString) (data : GoString) (err : Option GoError)
  | stdinRead (line : GoString) (failed : Bool)
  | containerDelete (container : GoString) (err : Option GoError)
  | fileClose (err : Option GoError)
  | fileRemove (name : GoString) (err : Option GoError)
deriving DecidableEq

/-- Everything outside the program that a run of the blob workflow depends on. -/
structure Env where
  /-- The clock, `time.Now().UnixNano()`, at the first call of `randomString`. -/
  now₁ : Int
  /-- The clock, `time.Now().UnixNano()`, at the second call of `randomString`. -/
  now₂ : Int
  /-- The 64 bits first drawn from `rand.NewSource(seed)`. -/
  source : Int → Nat
  /-- The error of `url.Parse` on the given text. -/
  urlParse : GoString → Option GoError
  /-- The error of `containerURL.Create`. -/
  create : Option GoError
  /-- The message of the `*os.PathError` of `ioutil.WriteFile`, if it fails. -/
  writeFile : Option GoString
  /-- The message of the `*os.PathError` of `os.Open`, if it fails. -/
  openFile : Option GoString
  /-- The error of `azblob.UploadFileToBlockBlob`. -/
  upload : Option GoError
  /-- The replies of the service to the successive `ListBlobs` calls; after the
  last of them the service stays silent. -/
  listing : List (Except GoError ListBlobsResponse)
  /-- What reading the download stream to its end yields, given the content the
  service stored for the blob (`none` when the upload failed): the bytes that
  reached the buffer and the error of `ReadFrom`. -/
  download : Option GoString → GoString × Option GoError
  /-- What `fmt.Printf` makes of the verbs of a format without operands. -/
  verbs : GoString → GoString
  stdin : Stdin
  /-- The error of `containerURL.Delete`. -/
  delete : Option GoError
  /-- The error of `file.Close`. -/
  close : Option GoError
  /-- The error of `os.Remove`. -/
  remove : Option GoError

/-- Go `fmt.Println(s)`: the text and a newline on standard output. -/
def Println (s : GoString) : Run Event Unit := emit (.stdout (s ++ str "\n"))

/-- Go `fmt.Print(s)`, and `fmt.Printf` once its text is formatted. -/
def Print (s : GoString) : Run Event Unit := emit (.stdout s)

/-- Go `log.Fatal(err)`: the error is logged and the process exits with status 1. -/
def logFatal {α : Type} (err : GoError) : Run Event α := ⟨[.fatalLog err], .error .fatal⟩

/-- The type assertion `err.(azblob.StorageError)` followed by `ServiceCode()`. -/
def GoError.ServiceCode? : GoError → Option GoString
  | .storage code _ => some code
  | .plain _ => none

/-- Source `randomString` (lines 32-35): a generator seeded with the clock, and the
decimal text of its first `Int()`. -/
def randomString (source : Int → Nat) (now : Int) : GoString :=
  Itoa (randInt (source now))

/-- Source `handleErrors` (lines 37-49): nil and the container-already-exists
service error let the caller go on, every other error is fatal. -/
def handleErrors (err : Option GoError) : Run Event Unit :=
  match err with
  | some e =>
    match GoError.ServiceCode? e with
    | some code =>
      if code = ServiceCodeContainerAlreadyExists then
        Println (str "Received 409. Container already exists")
      else logFatal e
    | none => logFatal e
  | none => pure ()

/-- The sample content of line 83. -/
def data : GoString := str "Hello World\nthis is a blob\n"

/-- Go `bufio.NewReader(os.Stdin).ReadBytes` with the newline as delimiter
(line 136, results discarded): the bytes up to and including
the first newline; at the end of input the bytes read so far with an error. -/
def readBytes (input : Stdin) : Run Event Unit :=
  if (10 : UInt8) ∈ input.pending then
    emit (.stdinRead (input.pending.takeWhile (fun b => b != 10) ++ [10]) false)
  else if input.closed then emit (.stdinRead input.pending true)
  else halt .blocked

/-- The listing loop of lines 108-121, from the current marker and the replies
the service still has to give.  A call that fails returns a nil response, so
that reading its `NextMarker` after the benign error panics; a call the
service never answers does not return. -/
def listLoop (marker : Marker) : List (Except GoError ListBlobsResponse) → Run Event Unit
  | [] => if Marker.NotDone marker then halt .blocked else pure ()
  | reply :: rest =>
    if Marker.NotDone marker then do
      let err : Option GoError := match reply with
        | .error e => some e
        | .ok _ => none
      emit (.listBlobs marker err)
      handleErrors err
      match reply with
      | .error _ => halt .panic
      | .ok listBlob => do
        let marker := listBlob.NextMarker
        listBlob.Blobs.forM (fun name => Print (str "Blob name: " ++ name ++ str "\n"))
        listLoop marker rest
    else pure ()

/-- The clean-up of lines 137-140, once the read of line 136 has returned. -/
def cleanup (env : Env) (containerName fileName : GoString) : Run Event Unit := do
  Print (str "Cleaning up.\n")
  emit (.containerDelete containerName env.delete)
  emit (.fileClose env.close)
  emit (.fileRemove fileName env.remove)

/-- Source `main` of `blob_storage.go` (lines 51-141). -/
def main (env : Env) : Run Event Unit := do
  Print (str "Azure blob storage quick start sample\n")
  let storageAccountName : GoString := str ""
  let containerName := str "quickstart-" ++ randomString env.source env.now₁
  Println (str "containerName: " ++ containerName)
  let rawURL := str "https://" ++ storageAccountName ++ str ".blob.core.windows.net/"
    ++ containerName
  match env.urlParse rawURL with
  | some err => Println err.Error
  | none => do
    Print (str "Creating a container named " ++ containerName ++ str "\n")
    emit (.containerCreate containerName env.create)
    handleErrors env.create
    Print (str "Creating a dummy file to test the upload and download\n")
    let fileName := randomString env.source env.now₂
    let err := env.writeFile.map GoError.plain
    emit (.writeFile fileName data 0o700 err)
    handleErrors err
    let err := env.openFile.map GoError.plain
    emit (.openFile fileName err)
    handleErrors err
    Print (str "Uploading the file with blob name: " ++ fileName ++ str "\n")
    emit (.upload fileName data (4 * 1024 * 1024) 16 env.upload)
    handleErrors env.upload
    listLoop none env.listing
    let stored : Option GoString := if env.upload.isNone then some data else none
    let downloadedData := (env.download stored).1
    let err := (env.download stored).2
    emit (.download fileName downloadedData err)
    handleErrors err
    Print (Printf0 env.verbs (str "Downloaded the blob: " ++ downloadedData))
    Print (str ("Press enter key to delete the sample files, example container, "
      ++ "and exit the application. \n"))
    readBytes env.stdin
    cleanup env containerName fileName

/-! ### Names for what `main` computes, and views of a trace -/

/-- The container name `main` builds on line 62. -/
def containerName (env : Env) : GoString :=
  str "quickstart-" ++ randomString env.source env.now₁

/-- The file and blob name `main` draws on line 84. -/
def fileName (env : Env) : GoString := randomString env.source env.now₂

/-- The text `main` hands to `url.Parse` on line 66. -/
def rawURL (env : Env) : GoString :=
  str "https://" ++ str "" ++ str ".blob.core.windows.net/" ++ containerName env

/-- The content the service holds for the blob when the download starts. -/
def stored (env : Env) : Option GoString :=
  if env.upload.isNone then some data else none

/-- The one error `handleErrors` lets pass: a storage error whose service code
is `ContainerAlreadyExists`. -/
def benign (e : GoError) : Bool :=
  decide (GoError.ServiceCode? e = some ServiceCodeContainerAlreadyExists)

/-- The error returned by a step that is followed by `handleErrors` (container
creation, file write, file open, upload, list call, download). -/
def Event.stepError : Event → Option GoError
  | .containerCreate _ err => err
  | .writeFile _ _ _ err => err
  | .openFile _ err => err
  | .upload _ _ _ _ err => err
  | .listBlobs _ err => err
  | .download _ _ err => err
  | _ => none

/-- The three clean-up calls: container delete, file close, file removal. -/
def Event.isCleanup : Event → Bool
  | .containerDelete _ _ => true
  | .fileClose _ => true
  | .fileRemove _ _ => true
  | _ => false

/-- A read from standard input. -/
def Event.isStdinRead : Event → Bool
  | .stdinRead _ _ => true
  | _ => false

/-- A fatal log. -/
def Event.isFatalLog : Event → Bool
  | .fatalLog _ => true
  | _ => false

/-- The markers of the list calls of a trace, in order. -/
def listCalls (t : List Event) : List Marker :=
  t.filterMap fun ev =>
    match ev with
    | .listBlobs marker _ => some marker
    | _ => none

/-- The texts written to standard output in a trace, in order. -/
def printed (t : List Event) : List GoString :=
  t.filterMap fun ev =>
    match ev with
    | .stdout text => some text
    | _ => none

/-- The steps of `main` that are followed by `handleErrors`, with the error
each returned. -/
def MainStep (env : Env) (ev : Event) (err : Option GoError) : Prop :=
  (ev = .containerCreate (containerName env) err ∧ err = env.create) ∨
  (ev = .writeFile (fileName env) data 0o700 err ∧ err = env.writeFile.map GoError.plain) ∨
  (ev = .openFile (fileName env) err ∧ err = env.openFile.map GoError.plain) ∨
  (ev = .upload (fileName env) data (4 * 1024 * 1024) 16 err ∧ err = env.upload) ∨
  (∃ marker, ev = .listBlobs marker err) ∨
  (ev = .download (fileName env) (env.download (stored env)).1 err ∧
    err = (env.download (stored env)).2)

/-- The events of a completed clean-up, after the read from standard input. -/
def cleanupEvents (env : Env) : List Event :=
  [.stdout (str "Cleaning up.\n"), .containerDelete (containerName env) env.delete,
    .fileClose env.close, .fileRemove (fileName env) env.remove]

end BlobStorage

namespace TableStorage

/-! ## `table_storage.go` -/

/-- A Go `interface{}` value found in `entity.Properties`: a string, or a value
of another dynamic type (named by `kind`). -/
inductive Value where
  | string (s : GoString)
  | other (kind : GoString)
deriving DecidableEq

/-- Go `map[string]interface{}`, `nil` being the empty list. -/
abbrev Properties := List (GoString × Value)

/-- SDK `storage.Client`, of which the program only keeps the account. -/
structure Client where
  accountName : GoString
  accountKey : GoString
deriving DecidableEq

/-- Observable events of the table workflow. -/
inductive Event where
  | stdout (text : GoString)
  | entityGet (table partitionKey rowKey : GoString) (timeout : Nat)
      (select : List GoString) (err : Option GoError)
deriving DecidableEq

/-- Everything outside the program that a run of the table workflow depends on. -/
structure Env where
  /-- The error of `storage.NewBasicClient` for an account name and key; the
  SDK gives one for an empty account name. -/
  newBasicClient : GoString → GoString → Option GoError
  /-- The reply of the table service to `entity.Get` with the given select
  list: an error, or the properties it populates. -/
  get : List GoString → Except GoError Properties

def TABLE_NAME : GoString := str ""

def STORAGE_ACCOUNT_NAME : GoString := str ""

def STORAGE_ACCOUNT_ACCESS_KEY : GoString := str ""

/-- Go `fmt.Println` of a string or of an error. -/
def Println (s : GoString) : Run Event Unit := emit (.stdout (s ++ str "\n"))

/-- Source `newClient` (lines 38-44): a `nil` client with the error, or a pointer to
the client. -/
def newClient (env : Env) (name key : GoString) : Option Client × Option GoError :=
  match env.newBasicClient name key with
  | some err => (none, some err)
  | none => (some ⟨name, key⟩, none)

/-- Source `main` of `table_storage.go` (lines 14-36).  `GetTableService` has a value
receiver, so calling it through a `nil` client pointer panics; the entity
reference starts with a `nil` property map, which only a successful `Get`
replaces; the type assertion to `string` panics on a missing key and on a
value of another type. -/
def main (env : Env) : Run Event Unit := do
  let (client, err) := newClient env STORAGE_ACCOUNT_NAME STORAGE_ACCOUNT_ACCESS_KEY
  match err with
  | some e => Println e.Error
  | none => pure ()
  match client with
  | none => halt .panic
  | some _ => do
    let reply := env.get [str "one property"]
    let err : Option GoError := match reply with
      | .error e => some e
      | .ok _ => none
    let properties : Properties := match reply with
      | .error _ => []
      | .ok ps => ps
    emit (.entityGet TABLE_NAME (str "PartitionKey") (str "RowKey") 30 [str "one property"] err)
    match err with
    | some e => Println e.Error
    | none => pure ()
    match properties.lookup (str "property") with
    | some (.string result) => Println result
    | _ => halt .panic

end TableStorage

namespace BlobStorage

/-- A read from standard input that returned a line ended by a newline. -/
def Event.readsLine : Event → Bool
  | .stdinRead line _ => line.getLast? == some 10
  | _ => false

/-! ### Sample environments -/

/-- Every call succeeds: the listing comes in two pages, the download returns
what the upload stored, and Enter is pressed. -/
def envOk : Env where
  now₁ := 1
  now₂ := 2
  source := fun seed => seed.natAbs * 37 + 5
  urlParse := fun _ => none
  create := none
  writeFile := none
  openFile := none
  upload := none
  listing := [.ok ⟨some (str "m1"), [str "a", str "b"]⟩, .ok ⟨some [], [str "c"]⟩]
  download := fun content => (content.getD [], none)
  verbs := id
  stdin := ⟨str "\n", false⟩
  delete := none
  close := none
  remove := none

/-- As `envOk`, but `url.Parse` rejects the container URL. -/
def envUrlFails : Env := { envOk with urlParse := fun _ => some (.plain (str "parse error")) }

/-- As `envOk`, but the upload fails with a network error. -/
def envUploadFails : Env := { envOk with upload := some (.plain (str "connection reset")) }

/-- As `envOk`, but standard input is at its end and no key is pressed. -/
def envStdinClosed : Env := { envOk with stdin := ⟨[], true⟩ }

/-- As `envOk`, but all three clean-up calls fail. -/
def envCleanupFails : Env :=
  { envOk with
    delete := some (.storage (str "ContainerNotFound") (str "404"))
    close := some (.plain (str "file already closed"))
    remove := some (.plain (str "no such file")) }

end BlobStorage

namespace TableStorage

/-- The client cannot be constructed: the SDK rejects the empty account name of
line 10. -/
def envNoClient : Env where
  newBasicClient := fun _ _ => some (.plain (str "azure: account name required"))
  get := fun _ => .ok []

/-- The client is constructed and the fetch fails. -/
def envGetFails : Env where
  newBasicClient := fun _ _ => none
  get := fun _ => .error (.plain (str "request timed out"))

end TableStorage

/-! # Theorems -/

/-! ## Decimal text -/

theorem digitByte_toNat (d : Nat) (h : d < 10) : (digitByte d).toNat = 48 + d := by
  unfold digitByte
  simp [UInt8.toNat, UInt8.ofNat, Fin.ofNat]
  omega

theorem formatDecimal_append (fuel n : Nat) (acc : GoString) :
    formatDecimal fuel n acc = formatDecimal fuel n [] ++ acc := by
  induction fuel generalizing n acc with
  | zero => simp [formatDecimal]
  | succ fuel ih =>
    simp only [formatDecimal]
    split
    · simp
    · rw [ih (n / 10) (digitByte (n % 10) :: acc), ih (n / 10) [digitByte (n % 10)]]
      simp

theorem decimalValue_snoc (s : GoString) (b : UInt8) :
    decimalValue (s ++ [b]) = 10 * decimalValue s + (b.toNat - 48) := by
  simp [decimalValue, List.foldl_append]

theorem decimalValue_formatDecimal (fuel n : Nat) (h : n < fuel) :
    decimalValue (formatDecimal fuel n []) = n := by
  induction fuel generalizing n with
  | zero => omega
  | succ fuel ih =>
    simp only [formatDecimal]
    split
    · simp [decimalValue, digitByte_toNat (n % 10) (Nat.mod_lt _ (by decide))]
      omega
    · rw [formatDecimal_append, decimalValue_snoc, ih (n / 10) (by omega),
        digitByte_toNat (n % 10) (Nat.mod_lt _ (by decide))]
      omega

theorem formatDecimal_digits (fuel n : Nat) :
    ∀ b ∈ formatDecimal fuel n [], isDigit b = true := by
  induction fuel generalizing n with
  | zero => simp [formatDecimal]
  | succ fuel ih =>
    have hd : isDigit (digitByte (n % 10)) = true := by
      simp [isDigit, digitByte_toNat (n % 10) (Nat.mod_lt _ (by decide))]
      omega
    simp only [formatDecimal]
    split
    · simpa using hd
    · rw [formatDecimal_append]
      intro b hb
      rcases List.mem_append.mp hb with h | h
      · exact ih _ b h
      · simp at h; rw [h]; exact hd

theorem formatDecimal_length_le (fuel n k : Nat) (hk : 0 < k) (h : n < 10 ^ k) :
    (formatDecimal fuel n []).length ≤ k := by
  induction fuel generalizing n k with
  | zero => simp [formatDecimal]
  | succ fuel ih =>
    simp only [formatDecimal]
    split
    · simpa using hk
    · rw [formatDecimal_append]
      obtain ⟨j, rfl⟩ : ∃ j, k = j + 1 := ⟨k - 1, by omega⟩
      have hj : 0 < j := by
        rcases Nat.eq_zero_or_pos j with hj | hj
        · subst hj; simp at h; omega
        · exact hj
      have := ih (n / 10) j hj (by rw [pow_succ] at h; omega)
      simp; omega

theorem formatDecimal_length_pos (fuel n : Nat) :
    0 < (formatDecimal (fuel + 1) n []).length := by
  simp only [formatDecimal]
  split
  · simp
  · rw [formatDecimal_append]; simp

/-- The first digit is a zero only in the text of zero itself. -/
theorem formatDecimal_head (fuel n : Nat) (h : n < fuel) :
    formatDecimal fuel n [] = [48] ∨
      ∃ b rest, formatDecimal fuel n [] = b :: rest ∧ b ≠ 48 := by
  have h48 : (48 : UInt8).toNat = 48 := rfl
  induction fuel generalizing n with
  | zero => omega
  | succ fuel ih =>
    simp only [formatDecimal]
    split
    · rcases Nat.eq_zero_or_pos n with hz | hz
      · left; subst hz; rfl
      · right
        refine ⟨_, [], rfl, ?_⟩
        intro hb
        have := congrArg UInt8.toNat hb
        rw [digitByte_toNat _ (Nat.mod_lt _ (by decide)), h48] at this
        omega
    · right
      rw [formatDecimal_append]
      rcases ih (n / 10) (by omega) with hz | ⟨b, rest, hb, hne⟩
      · exfalso
        have := decimalValue_formatDecimal fuel (n / 10) (by omega)
        have hv : decimalValue [48] = 0 := by decide
        rw [hz, hv] at this
        omega
      · exact ⟨b, rest ++ [digitByte (n % 10)], by rw [hb]; rfl, hne⟩

/-! ## Sequencing of runs -/

namespace Run

variable {ε α β γ : Type}

theorem bind_of_ok {x : Run ε α} {a : α} (h : x.val = .ok a) (f : α → Run ε β) :
    (x >>= f) = ⟨x.trace ++ (f a).trace, (f a).val⟩ := by
  show Run.bind x f = _
  simp [Run.bind, h]

theorem bind_of_error {x : Run ε α} {k : Halt} (h : x.val = .error k) (f : α → Run ε β) :
    (x >>= f) = ⟨x.trace, .error k⟩ := by
  show Run.bind x f = _
  simp [Run.bind, h]

theorem bind_assoc (x : Run ε α) (f : α → Run ε β) (g : β → Run ε γ) :
    ((x >>= f) >>= g) = (x >>= fun a => f a >>= g) := by
  cases hv : x.val with
  | error k => rw [bind_of_error hv, bind_of_error hv]; rfl
  | ok a =>
    rw [bind_of_ok hv f, bind_of_ok hv]
    cases hw : (f a).val with
    | error k =>
      rw [bind_of_error hw]
      show Run.bind _ _ = _
      simp [Run.bind]
    | ok b =>
      rw [bind_of_ok hw]
      show Run.bind _ _ = _
      simp [Run.bind]

theorem pure_bind (a : α) (f : α → Run ε β) : ((pure a : Run ε α) >>= f) = f a := by
  show Run.bind _ _ = _
  simp [Run.bind, pure]

theorem emit_bind (e : ε) (k : Run ε β) :
    (emit e >>= fun _ => k) = ⟨e :: k.trace, k.val⟩ := rfl

end Run

namespace BlobStorage

/-! ## The shape of a run of the blob workflow -/

/-- A step that returns no error: the run goes on. -/
theorem step_run_none (ev : Event) (k : Run Event Unit) :
    (emit ev >>= fun _ => handleErrors none >>= fun _ => k) = ⟨ev :: k.trace, k.val⟩ := by
  rw [Run.emit_bind]
  simp only [handleErrors]
  rw [Run.pure_bind]

/-- A step that returns the benign error: the notice is printed and the run
goes on. -/
theorem step_run_benign (ev : Event) (e : GoError) (k : Run Event Unit)
    (h : benign e = true) :
    (emit ev >>= fun _ => handleErrors (some e) >>= fun _ => k) =
      ⟨ev :: .stdout (str "Received 409. Container already exists" ++ str "\n") :: k.trace,
        k.val⟩ := by
  rw [Run.emit_bind]
  rcases e with ⟨code, msg⟩ | msg
  · have hc : code = ServiceCodeContainerAlreadyExists := by
      simpa [benign, GoError.ServiceCode?] using h
    simp only [handleErrors, GoError.ServiceCode?, hc, if_true, Println]
    rw [Run.emit_bind]
  · simp [benign, GoError.ServiceCode?] at h

/-- A step that returns any other error: the fatal log ends the run. -/
theorem step_run_fatal (ev : Event) (e : GoError) (k : Run Event Unit)
    (h : benign e = false) :
    (emit ev >>= fun _ => handleErrors (some e) >>= fun _ => k) =
      ⟨[ev, .fatalLog e], .error .fatal⟩ := by
  rw [Run.emit_bind]
  rcases e with ⟨code, msg⟩ | msg
  · have hc : ¬ code = ServiceCodeContainerAlreadyExists := by
      simpa [benign, GoError.ServiceCode?] using h
    simp only [handleErrors, GoError.ServiceCode?, hc, if_false]
    rfl
  · simp only [handleErrors, GoError.ServiceCode?]
    rfl

theorem MainStep.stepError_eq {env : Env} {ev : Event} {err : Option GoError}
    (h : MainStep env ev err) : ev.stepError = err := by
  rcases h with ⟨h, _⟩ | ⟨h, _⟩ | ⟨h, _⟩ | ⟨h, _⟩ | ⟨_, h⟩ | ⟨h, _⟩ <;> subst h <;> rfl

theorem MainStep.not_special {env : Env} {ev : Event} {err : Option GoError}
    (h : MainStep env ev err) :
    ev.isCleanup = false ∧ ev.isStdinRead = false ∧ ev.isFatalLog = false := by
  rcases h with ⟨h, _⟩ | ⟨h, _⟩ | ⟨h, _⟩ | ⟨h, _⟩ | ⟨_, h⟩ | ⟨h, _⟩ <;> subst h <;>
    exact ⟨rfl, rfl, rfl⟩

/-- Induction over the listing loop followed by the rest of the run. -/
theorem listLoop_induction (P : Run Event Unit → Prop)
    (h_halt : ∀ h, P (halt h))
    (h_out : ∀ t k, P k → P (emit (.stdout t) >>= fun _ => k))
    (h_step : ∀ marker err k, P k →
      P (emit (.listBlobs marker err) >>= fun _ => handleErrors err >>= fun _ => k))
    (k : Run Event Unit) (hk : P k) (marker : Marker)
    (script : List (Except GoError ListBlobsResponse)) :
    P (listLoop marker script >>= fun _ => k) := by
  induction script generalizing marker with
  | nil =>
    unfold listLoop
    split
    · exact h_halt _
    · rw [Run.pure_bind]; exact hk
  | cons reply rest ih =>
    unfold listLoop
    split
    · rw [Run.bind_assoc]
      simp only [Run.bind_assoc]
      apply h_step
      cases reply with
      | error e => exact h_halt _
      | ok listBlob =>
        have hnames : ∀ names : List GoString,
            P (names.forM (fun name => Print (str "Blob name: " ++ name ++ str "\n")) >>=
              fun _ => listLoop listBlob.NextMarker rest >>= fun _ => k) := by
          intro names
          induction names with
          | nil => simp only [List.forM]; rw [Run.pure_bind]; exact ih _
          | cons name names ihn =>
            simp only [List.forM, Run.bind_assoc]
            exact h_out _ _ ihn
        dsimp only
        rw [Run.bind_assoc]
        exact hnames _
    · rw [Run.pure_bind]; exact hk

/-- Induction over the statements of `main`: a property of runs that holds of
the final read and clean-up, and is kept by a print and by a step followed by
`handleErrors`, holds of `main`. -/
theorem main_induction (env : Env) (P : Run Event Unit → Prop)
    (h_pure : P (pure ()))
    (h_halt : ∀ h, P (halt h))
    (h_out : ∀ t k, P k → P (emit (.stdout t) >>= fun _ => k))
    (h_step : ∀ ev err k, MainStep env ev err → P k →
      P (emit ev >>= fun _ => handleErrors err >>= fun _ => k))
    (h_tail : P (readBytes env.stdin >>= fun _ =>
      cleanup env (containerName env) (fileName env))) :
    P (main env) := by
  unfold main
  apply h_out
  apply h_out
  simp only []
  generalize env.urlParse _ = parsed
  cases parsed with
  | some err => exact h_out _ _ h_pure
  | none => ?_
  simp only []
  apply h_out
  apply h_step _ _ _ (Or.inl ⟨rfl, rfl⟩)
  apply h_out
  apply h_step _ _ _ (Or.inr (Or.inl ⟨rfl, rfl⟩))
  apply h_step _ _ _ (Or.inr (Or.inr (Or.inl ⟨rfl, rfl⟩)))
  apply h_out
  apply h_step _ _ _ (Or.inr (Or.inr (Or.inr (Or.inl ⟨rfl, rfl⟩))))
  apply listLoop_induction P h_halt h_out
    (fun marker err k hk =>
      h_step _ err k (Or.inr (Or.inr (Or.inr (Or.inr (Or.inl ⟨marker, rfl⟩))))) hk)
  apply h_step _ _ _ (Or.inr (Or.inr (Or.inr (Or.inr (Or.inr ⟨rfl, rfl⟩)))))
  apply h_out
  apply h_out
  exact h_tail

/-- The final read and clean-up: blocked, or the read followed by the complete
clean-up. -/
theorem tail_run (env : Env) :
    (readBytes env.stdin >>= fun _ => cleanup env (containerName env) (fileName env)) =
      if (10 : UInt8) ∈ env.stdin.pending then
        ⟨.stdinRead (env.stdin.pending.takeWhile (fun b => b != 10) ++ [10]) false ::
          cleanupEvents env, .ok ()⟩
      else if env.stdin.closed then
        ⟨.stdinRead env.stdin.pending true :: cleanupEvents env, .ok ()⟩
      else ⟨[], .error .blocked⟩ := by
  unfold readBytes
  split
  · rfl
  · split
    · rfl
    · rfl

end BlobStorage

namespace BlobStorage

theorem tail_no_step (env : Env) :
    ∀ ev ∈ (readBytes env.stdin >>= fun _ =>
      cleanup env (containerName env) (fileName env)).trace,
      ev.stepError = none ∧ ev.isFatalLog = false := by
  rw [tail_run]
  intro ev hev
  split at hev
  · simp [cleanupEvents] at hev
    rcases hev with h | h | h | h | h <;> subst h <;> exact ⟨rfl, rfl⟩
  · split at hev
    · simp [cleanupEvents] at hev
      rcases hev with h | h | h | h | h <;> subst h <;> exact ⟨rfl, rfl⟩
    · simp at hev

/-- A step whose error `handleErrors` does not let pass is followed by the
fatal log and by nothing else, and the process ends there. -/
theorem main_fatal_stops (env : Env) :
    ∀ (pre : List Event) (ev : Event) (post : List Event) (e : GoError),
      (main env).trace = pre ++ ev :: post → ev.stepError = some e →
      benign e = false → post = [.fatalLog e] ∧ (main env).val = .error .fatal := by
  refine main_induction env (fun r => ∀ (pre : List Event) (ev : Event) (post : List Event)
    (e : GoError), r.trace = pre ++ ev :: post → ev.stepError = some e → benign e = false →
    post = [.fatalLog e] ∧ r.val = .error .fatal) ?_ ?_ ?_ ?_ ?_
  · intro pre ev post e ht
    simp [pure] at ht
  · intro h pre ev post e ht
    simp [halt] at ht
  · intro t k hk pre ev post e ht hs hb
    rw [Run.emit_bind] at ht ⊢
    rcases List.cons_eq_append_iff.mp ht with ⟨_, h2⟩ | ⟨pre', _, h2⟩
    · injection h2 with h3 h4
      subst h3
      simp [Event.stepError] at hs
    · exact hk pre' ev post e h2 hs hb
  · intro ev0 err k hstep hk pre ev post e ht hs hb
    have h0 := hstep.stepError_eq
    rcases err with _ | e0
    · rw [step_run_none] at ht ⊢
      rcases List.cons_eq_append_iff.mp ht with ⟨_, h2⟩ | ⟨pre', _, h2⟩
      · injection h2 with h3 h4
        subst h3
        rw [h0] at hs
        cases hs
      · exact hk pre' ev post e h2 hs hb
    · cases hben : benign e0 with
      | true =>
        rw [step_run_benign _ _ _ hben] at ht ⊢
        rcases List.cons_eq_append_iff.mp ht with ⟨_, h2⟩ | ⟨pre', _, h2⟩
        · injection h2 with h3 h4
          subst h3
          rw [h0] at hs
          cases hs
          rw [hben] at hb
          cases hb
        · rcases List.cons_eq_append_iff.mp h2 with ⟨_, h5⟩ | ⟨pre2, _, h5⟩
          · injection h5 with h6 h7
            subst h6
            simp [Event.stepError] at hs
          · exact hk pre2 ev post e h5 hs hb
      | false =>
        rw [step_run_fatal _ _ _ hben] at ht ⊢
        rcases List.cons_eq_append_iff.mp ht with ⟨_, h2⟩ | ⟨pre', _, h2⟩
        · injection h2 with h3 h4
          subst h3
          rw [h0] at hs
          cases hs
          exact ⟨h4, rfl⟩
        · rcases List.cons_eq_append_iff.mp h2 with ⟨_, h5⟩ | ⟨pre2, _, h5⟩
          · injection h5 with h6 h7
            subst h6
            simp [Event.stepError] at hs
          · simp at h5
  · intro pre ev post e ht hs hb
    have := (tail_no_step env ev (by rw [ht]; simp)).1
    rw [this] at hs
    cases hs

/-- A fatal log occurs only in a run that ends by it. -/
theorem main_fatalLog (env : Env) :
    ∀ ev ∈ (main env).trace, ev.isFatalLog = true → (main env).val = .error .fatal := by
  refine main_induction env (fun r => ∀ ev ∈ r.trace, ev.isFatalLog = true →
    r.val = .error .fatal) ?_ ?_ ?_ ?_ ?_
  · intro ev hev
    simp [pure] at hev
  · intro h ev hev
    simp [halt] at hev
  · intro t k hk ev hev hf
    rw [Run.emit_bind] at hev ⊢
    rcases List.mem_cons.mp hev with h | h
    · subst h; cases hf
    · exact hk ev h hf
  · intro ev0 err k hstep hk ev hev hf
    have h0 := hstep.not_special.2.2
    rcases err with _ | e0
    · rw [step_run_none] at hev ⊢
      rcases List.mem_cons.mp hev with h | h
      · subst h; rw [h0] at hf; cases hf
      · exact hk ev h hf
    · cases hben : benign e0 with
      | true =>
        rw [step_run_benign _ _ _ hben] at hev ⊢
        rcases List.mem_cons.mp hev with h | h
        · subst h; rw [h0] at hf; cases hf
        · rcases List.mem_cons.mp h with h | h
          · subst h; cases hf
          · exact hk ev h hf
      | false => rw [step_run_fatal _ _ _ hben]
  · intro ev hev hf
    have := (tail_no_step env ev hev).2
    rw [this] at hf
    cases hf

/-- A run of `main` is work (prints, steps, fatal log) alone, or work followed
by the read from standard input and the complete clean-up, after which `main`
returns. -/
theorem main_shape (env : Env) :
    ∃ work : List Event, (∀ ev ∈ work, ev.isCleanup = false ∧ ev.isStdinRead = false) ∧
      ((main env).trace = work ∨
        ∃ line failed, (main env).trace = work ++ .stdinRead line failed :: cleanupEvents env ∧
          (main env).val = .ok () ∧
          (failed = false → line.getLast? = some 10) ∧
          (failed = true → (10 : UInt8) ∉ line ∧ env.stdin.closed = true)) := by
  refine main_induction env (fun r => ∃ work : List Event,
    (∀ ev ∈ work, ev.isCleanup = false ∧ ev.isStdinRead = false) ∧
      (r.trace = work ∨
        ∃ line failed, r.trace = work ++ .stdinRead line failed :: cleanupEvents env ∧
          r.val = .ok () ∧
          (failed = false → line.getLast? = some 10) ∧
          (failed = true → (10 : UInt8) ∉ line ∧ env.stdin.closed = true))) ?_ ?_ ?_ ?_ ?_
  · exact ⟨[], by simp, Or.inl rfl⟩
  · intro h
    exact ⟨[], by simp, Or.inl rfl⟩
  · rintro t k ⟨work, hw, hk⟩
    rw [Run.emit_bind]
    refine ⟨.stdout t :: work, ?_, ?_⟩
    · intro ev hev
      rcases List.mem_cons.mp hev with h | h
      · subst h; exact ⟨rfl, rfl⟩
      · exact hw ev h
    · rcases hk with hk | ⟨line, failed, hk, hrest⟩
      · exact Or.inl (by simp [hk])
      · exact Or.inr ⟨line, failed, by simp [hk], hrest⟩
  · rintro ev0 err k hstep ⟨work, hw, hk⟩
    have h0 := hstep.not_special
    rcases err with _ | e0
    · rw [step_run_none]
      refine ⟨ev0 :: work, ?_, ?_⟩
      · intro ev hev
        rcases List.mem_cons.mp hev with h | h
        · subst h; exact ⟨h0.1, h0.2.1⟩
        · exact hw ev h
      · rcases hk with hk | ⟨line, failed, hk, hrest⟩
        · exact Or.inl (by simp [hk])
        · exact Or.inr ⟨line, failed, by simp [hk], hrest⟩
    · cases hben : benign e0 with
      | true =>
        rw [step_run_benign _ _ _ hben]
        refine ⟨ev0 :: .stdout (str "Received 409. Container already exists" ++ str "\n") ::
          work, ?_, ?_⟩
        · intro ev hev
          rcases List.mem_cons.mp hev with h | h
          · subst h; exact ⟨h0.1, h0.2.1⟩
          · rcases List.mem_cons.mp h with h | h
            · subst h; exact ⟨rfl, rfl⟩
            · exact hw ev h
        · rcases hk with hk | ⟨line, failed, hk, hrest⟩
          · exact Or.inl (by simp [hk])
          · exact Or.inr ⟨line, failed, by simp [hk], hrest⟩
      | false =>
        rw [step_run_fatal _ _ _ hben]
        refine ⟨[ev0, .fatalLog e0], ?_, Or.inl rfl⟩
        intro ev hev
        rcases List.mem_cons.mp hev with h | h
        · subst h; exact ⟨h0.1, h0.2.1⟩
        · simp at h; subst h; exact ⟨rfl, rfl⟩
  · rw [tail_run]
    refine ⟨[], by simp, ?_⟩
    split
    · exact Or.inr ⟨_, false, rfl, rfl, (fun _ => by simp), (fun h => by cases h)⟩
    · rename_i hnl
      split
      · rename_i hc
        exact Or.inr ⟨_, true, rfl, rfl, (fun h => by cases h), (fun _ => ⟨hnl, hc⟩)⟩
      · exact Or.inl rfl

/-- Every event of a run of `main` is a print, a fatal log, one of the steps
followed by `handleErrors`, the read from standard input or a clean-up call. -/
theorem main_events (env : Env) (Q : Event → Prop)
    (h_out : ∀ t, Q (.stdout t)) (h_fatal : ∀ e, Q (.fatalLog e))
    (h_step : ∀ ev err, MainStep env ev err → Q ev)
    (h_read : ∀ line failed, Q (.stdinRead line failed))
    (h_clean : ∀ ev ∈ cleanupEvents env, Q ev) :
    ∀ ev ∈ (main env).trace, Q ev := by
  refine main_induction env (fun r => ∀ ev ∈ r.trace, Q ev) ?_ ?_ ?_ ?_ ?_
  · intro ev hev
    simp [pure] at hev
  · intro h ev hev
    simp [halt] at hev
  · intro t k hk ev hev
    rw [Run.emit_bind] at hev
    rcases List.mem_cons.mp hev with h | h
    · subst h; exact h_out t
    · exact hk ev h
  · intro ev0 err k hstep hk ev hev
    rcases err with _ | e0
    · rw [step_run_none] at hev
      rcases List.mem_cons.mp hev with h | h
      · subst h; exact h_step _ _ hstep
      · exact hk ev h
    · cases hben : benign e0 with
      | true =>
        rw [step_run_benign _ _ _ hben] at hev
        rcases List.mem_cons.mp hev with h | h
        · subst h; exact h_step _ _ hstep
        · rcases List.mem_cons.mp h with h | h
          · subst h; exact h_out _
          · exact hk ev h
      | false =>
        rw [step_run_fatal _ _ _ hben] at hev
        rcases List.mem_cons.mp hev with h | h
        · subst h; exact h_step _ _ hstep
        · simp at h; subst h; exact h_fatal _
  · rw [tail_run]
    intro ev hev
    split at hev
    · rcases List.mem_cons.mp hev with h | h
      · subst h; exact h_read _ _
      · exact h_clean ev h
    · split at hev
      · rcases List.mem_cons.mp hev with h | h
        · subst h; exact h_read _ _
        · exact h_clean ev h
      · simp at hev

end BlobStorage

namespace BlobStorage

/-! ## The listing loop -/

theorem listLoop_done (marker : Marker) (h : Marker.NotDone marker = false)
    (script : List (Except GoError ListBlobsResponse)) :
    listLoop marker script = pure () := by
  cases script <;> simp [listLoop, h]

theorem forM_print_run (names : List GoString) :
    names.forM (fun name => Print (str "Blob name: " ++ name ++ str "\n")) =
      (⟨names.map (fun name => Event.stdout (str "Blob name: " ++ name ++ str "\n")),
        .ok ()⟩ : Run Event Unit) := by
  induction names with
  | nil => rfl
  | cons name names ih =>
    simp only [List.forM]
    rw [ih]
    rfl

theorem listLoop_page (marker : Marker) (h : Marker.NotDone marker = true)
    (page : ListBlobsResponse) (rest : List (Except GoError ListBlobsResponse)) :
    listLoop marker (.ok page :: rest) =
      ⟨.listBlobs marker none ::
        (page.Blobs.map (fun name => Event.stdout (str "Blob name: " ++ name ++ str "\n")) ++
          (listLoop page.NextMarker rest).trace),
        (listLoop page.NextMarker rest).val⟩ := by
  rw [listLoop]
  simp only [h, if_true]
  rw [step_run_none, forM_print_run]
  rfl

theorem listLoop_page_calls (marker : Marker) (h : Marker.NotDone marker = true)
    (page : ListBlobsResponse) (rest : List (Except GoError ListBlobsResponse)) :
    listCalls (listLoop marker (.ok page :: rest)).trace =
      marker :: listCalls (listLoop page.NextMarker rest).trace := by
  rw [listLoop_page marker h]
  show listCalls (_ :: (_ ++ _)) = _
  generalize (listLoop page.NextMarker rest).trace = t
  simp only [listCalls, List.filterMap_cons, List.filterMap_append, List.cons.injEq, true_and]
  induction page.Blobs with
  | nil => rfl
  | cons name names ih => simp

theorem listLoop_page_printed (marker : Marker) (h : Marker.NotDone marker = true)
    (page : ListBlobsResponse) (rest : List (Except GoError ListBlobsResponse)) :
    printed (listLoop marker (.ok page :: rest)).trace =
      page.Blobs.map (fun name => str "Blob name: " ++ name ++ str "\n") ++
        printed (listLoop page.NextMarker rest).trace := by
  rw [listLoop_page marker h]
  show printed (_ :: (_ ++ _)) = _
  generalize (listLoop page.NextMarker rest).trace = t
  simp only [printed, List.filterMap_cons, List.filterMap_append]
  congr 1
  induction page.Blobs with
  | nil => rfl
  | cons name names ih => simpa using ih

theorem listLoop_page_mem (marker : Marker) (h : Marker.NotDone marker = true)
    (page : ListBlobsResponse) (rest : List (Except GoError ListBlobsResponse))
    (ev : Event) (hev : ev ∈ (listLoop marker (.ok page :: rest)).trace) :
    ev = .listBlobs marker none ∨ (∃ text, ev = .stdout text) ∨
      ev ∈ (listLoop page.NextMarker rest).trace := by
  rw [listLoop_page marker h] at hev
  rcases List.mem_cons.mp hev with h1 | h1
  · exact Or.inl h1
  · rcases List.mem_append.mp h1 with h2 | h2
    · obtain ⟨name, _, rfl⟩ := List.mem_map.mp h2
      exact Or.inr (Or.inl ⟨_, rfl⟩)
    · exact Or.inr (Or.inr h2)

theorem listLoop_pages (marker : Marker) (hm : Marker.NotDone marker = true)
    (pre : List ListBlobsResponse) (last : ListBlobsResponse)
    (rest : List (Except GoError ListBlobsResponse))
    (hpre : ∀ p ∈ pre, Marker.NotDone p.NextMarker = true)
    (hlast : Marker.NotDone last.NextMarker = false) :
    (listLoop marker ((pre ++ [last]).map Except.ok ++ rest)).val = .ok () ∧
    listCalls (listLoop marker ((pre ++ [last]).map Except.ok ++ rest)).trace =
      marker :: pre.map (fun p => p.NextMarker) ∧
    printed (listLoop marker ((pre ++ [last]).map Except.ok ++ rest)).trace =
      ((pre ++ [last]).flatMap (fun p => p.Blobs)).map
        (fun name => str "Blob name: " ++ name ++ str "\n") ∧
    (∀ ev ∈ (listLoop marker ((pre ++ [last]).map Except.ok ++ rest)).trace,
      (∃ text, ev = .stdout text) ∨ ∃ m, ev = .listBlobs m none) := by
  induction pre generalizing marker with
  | nil =>
    simp only [List.nil_append, List.map_cons, List.map_nil, List.cons_append]
    refine ⟨?_, ?_, ?_, ?_⟩
    · rw [listLoop_page marker hm, listLoop_done _ hlast]
      rfl
    · rw [listLoop_page_calls marker hm, listLoop_done _ hlast]
      rfl
    · rw [listLoop_page_printed marker hm, listLoop_done _ hlast]
      simp [printed, pure]
    · intro ev hev
      rcases listLoop_page_mem marker hm _ _ ev hev with h | h | h
      · exact Or.inr ⟨_, h⟩
      · exact Or.inl h
      · rw [listLoop_done _ hlast] at h
        simp [pure] at h
  | cons p pre ih =>
    have hp := hpre p (List.mem_cons_self _ _)
    obtain ⟨h1, h2, h3, h4⟩ :=
      ih p.NextMarker hp (fun q hq => hpre q (List.mem_cons_of_mem _ hq))
    simp only [List.cons_append, List.map_cons]
    refine ⟨?_, ?_, ?_, ?_⟩
    · rw [listLoop_page marker hm]
      exact h1
    · rw [listLoop_page_calls marker hm, h2]
    · rw [listLoop_page_printed marker hm, h3]
      simp
    · intro ev hev
      rcases listLoop_page_mem marker hm _ _ ev hev with h | h | h
      · exact Or.inr ⟨_, h⟩
      · exact Or.inl h
      · exact h4 ev h

end BlobStorage

namespace BlobStorage

/-! ## Claims -/

/-- C1: `handleErrors err` returns, so that the workflow goes on, exactly when
`err` is nil or a storage error with service code `ContainerAlreadyExists`; in
the second case it prints "Received 409. Container already exists"; every other
error, a storage error with another code or an error of another type, is
logged by the fatal log and ends the process. -/
theorem handleErrors_returns_iff (err : Option GoError) :
    ((handleErrors err).returned = true ↔
      (err = none ∨ ∃ msg, err = some (.storage ServiceCodeContainerAlreadyExists msg))) ∧
    (err = none → (handleErrors err).trace = []) ∧
    (∀ msg, err = some (.storage ServiceCodeContainerAlreadyExists msg) →
      (handleErrors err).trace =
        [.stdout (str "Received 409. Container already exists\n")]) ∧
    (∀ e, err = some e → (∀ msg, e ≠ .storage ServiceCodeContainerAlreadyExists msg) →
      (handleErrors err).trace = [.fatalLog e] ∧ (handleErrors err).halted .fatal = true) := by
  rcases err with _ | ⟨code, msg⟩ | msg
  · refine ⟨by simp [handleErrors, Run.returned, pure], fun _ => rfl, ?_, ?_⟩
    · intro msg h; cases h
    · intro e h; cases h
  · by_cases h : code = ServiceCodeContainerAlreadyExists
    · subst h
      refine ⟨by simp [handleErrors, Run.returned, GoError.ServiceCode?, Println, emit],
        (fun h => by cases h), ?_, ?_⟩
      · intro msg' _
        simp only [handleErrors, GoError.ServiceCode?, if_true, Println, emit]
        rfl
      · intro e he hne
        cases he
        exact absurd rfl (hne msg)
    · refine ⟨by simp [handleErrors, Run.returned, GoError.ServiceCode?, logFatal, h],
        (fun h => by cases h), ?_, ?_⟩
      · intro msg' h'
        cases h'
        exact absurd rfl h
      · intro e he _
        cases he
        simp [handleErrors, GoError.ServiceCode?, logFatal, h, Run.halted]
  · refine ⟨by simp [handleErrors, Run.returned, GoError.ServiceCode?, logFatal],
      (fun h => by cases h), ?_, ?_⟩
    · intro msg' h'; cases h'
    · intro e he _
      cases he
      simp [handleErrors, GoError.ServiceCode?, logFatal, Run.halted]

/-- C1, at a second creation of the same container and at an authentication
failure. -/
theorem handleErrors_returns_iff_witness :
    (handleErrors (some (.storage ServiceCodeContainerAlreadyExists (str "409")))).returned
      = true ∧
    (handleErrors (some (.storage (str "AuthenticationFailed") (str "403")))).trace =
      [.fatalLog (.storage (str "AuthenticationFailed") (str "403"))] ∧
    (handleErrors (some (.storage (str "AuthenticationFailed") (str "403")))).halted .fatal
      = true :=
  ⟨(handleErrors_returns_iff _).1.mpr (Or.inr ⟨_, rfl⟩),
    (handleErrors_returns_iff _).2.2.2 _ rfl
      (fun _ h => absurd (GoError.storage.inj h).1 (by decide))⟩

end BlobStorage

namespace BlobStorage

/-- C3: for every finite sequence of pages served by the service, all with a
continuation marker but the last, the listing loop issues one list call per
page, with the zero marker first and then the `NextMarker` of the page before,
stops after the first page whose marker signals completion (what the service
might serve after it is never asked for), and prints the blob names of all
pages in service order, each exactly once. -/
theorem listLoop_follows_markers (pre : List ListBlobsResponse) (last : ListBlobsResponse)
    (rest : List (Except GoError ListBlobsResponse))
    (hpre : ∀ p ∈ pre, Marker.NotDone p.NextMarker = true)
    (hlast : Marker.NotDone last.NextMarker = false) :
    (listLoop none ((pre ++ [last]).map Except.ok ++ rest)).returned = true ∧
    listCalls (listLoop none ((pre ++ [last]).map Except.ok ++ rest)).trace =
      none :: pre.map (fun p => p.NextMarker) ∧
    (listCalls (listLoop none ((pre ++ [last]).map Except.ok ++ rest)).trace).length =
      (pre ++ [last]).length ∧
    printed (listLoop none ((pre ++ [last]).map Except.ok ++ rest)).trace =
      ((pre ++ [last]).flatMap (fun p => p.Blobs)).map
        (fun name => str "Blob name: " ++ name ++ str "\n") ∧
    (∀ ev ∈ (listLoop none ((pre ++ [last]).map Except.ok ++ rest)).trace,
      (∃ text, ev = .stdout text) ∨ ∃ m, ev = .listBlobs m none) := by
  obtain ⟨h1, h2, h3, h4⟩ := listLoop_pages none rfl pre last rest hpre hlast
  refine ⟨?_, h2, ?_, h3, h4⟩
  · unfold Run.returned
    rw [h1]
  · rw [h2]; simp

/-- C3, on a listing of three blobs in two pages. -/
theorem listLoop_follows_markers_witness :
    listCalls (listLoop none ([(⟨some (str "m1"), [str "a", str "b"]⟩ : ListBlobsResponse),
      ⟨some [], [str "c"]⟩].map Except.ok ++ [])).trace = [none, some (str "m1")] ∧
    printed (listLoop none ([(⟨some (str "m1"), [str "a", str "b"]⟩ : ListBlobsResponse),
      ⟨some [], [str "c"]⟩].map Except.ok ++ [])).trace =
      [str "Blob name: a\n", str "Blob name: b\n", str "Blob name: c\n"] :=
  ⟨(listLoop_follows_markers [⟨some (str "m1"), [str "a", str "b"]⟩] ⟨some [], [str "c"]⟩ []
      (by decide) (by decide)).2.1,
    (listLoop_follows_markers [⟨some (str "m1"), [str "a", str "b"]⟩] ⟨some [], [str "c"]⟩ []
      (by decide) (by decide)).2.2.2.1⟩

/-- C5, as stated: the sample content is not 28 bytes long. -/
theorem data_length_ne_28 : data.length ≠ 28 := by decide

/-- C5, amended: the sample content that the blob workflow writes to the local
file and uploads is the byte sequence "Hello World\nthis is a blob\n", and that
sequence is 27 bytes long. -/
theorem data_is_sample_of_27_bytes :
    data = str "Hello World\nthis is a blob\n" ∧
    data = [72, 101, 108, 108, 111, 32, 87, 111, 114, 108, 100, 10,
      116, 104, 105, 115, 32, 105, 115, 32, 97, 32, 98, 108, 111, 98, 10] ∧
    data.length = 27 ∧
    (∀ env : Env, ∀ ev ∈ (main env).trace,
      (∀ name d perm err, ev = Event.writeFile name d perm err → d = data) ∧
      (∀ blob c bs par err, ev = Event.upload blob c bs par err → c = data)) := by
  refine ⟨rfl, by decide, by decide, ?_⟩
  intro env
  apply main_events env
  · intro t
    exact ⟨(fun _ _ _ _ h => by cases h), (fun _ _ _ _ _ h => by cases h)⟩
  · intro e
    exact ⟨(fun _ _ _ _ h => by cases h), (fun _ _ _ _ _ h => by cases h)⟩
  · intro ev err hstep
    rcases hstep with ⟨h, _⟩ | ⟨h, _⟩ | ⟨h, _⟩ | ⟨h, _⟩ | ⟨_, h⟩ | ⟨h, _⟩ <;> subst h <;>
      refine ⟨fun _ _ _ _ h => ?_, fun _ _ _ _ _ h => ?_⟩ <;> cases h <;> rfl
  · intro line failed
    exact ⟨(fun _ _ _ _ h => by cases h), (fun _ _ _ _ _ h => by cases h)⟩
  · intro ev hev
    simp [cleanupEvents] at hev
    rcases hev with h | h | h | h <;> subst h <;>
      exact ⟨(fun _ _ _ _ h => by cases h), (fun _ _ _ _ _ h => by cases h)⟩

/-- C5, amended, at the run in which every call succeeds: the upload event
carries the 27 bytes. -/
theorem data_is_sample_of_27_bytes_witness :
    ∀ blob c bs par err, Event.upload (fileName envOk) data (4 * 1024 * 1024) 16 none =
      Event.upload blob c bs par err → c = data :=
  (data_is_sample_of_27_bytes.2.2.2 envOk
    (Event.upload (fileName envOk) data (4 * 1024 * 1024) 16 none) (by decide)).2

theorem randomString_eq (source : Int → Nat) (now : Int) :
    randomString source now =
      formatDecimal (source now % 2 ^ 63 + 1) (source now % 2 ^ 63) [] := by
  unfold randomString randInt Int63 Itoa
  have h : ¬ (Int.ofNat (source now % 2 ^ 63) < 0) := by
    simp only [Int.ofNat_eq_coe]; omega
  rw [if_neg h]
  rfl

/-- The first two prints of every run of `main`: the banner, and the container
name built from the first call of `randomString`. -/
theorem main_prints_containerName (env : Env) :
    (main env).trace.take 2 =
      [.stdout (str "Azure blob storage quick start sample\n"),
        .stdout (str "containerName: " ++
          (str "quickstart-" ++ randomString env.source env.now₁) ++ str "\n")] := by
  unfold main
  simp only [Print, Println, Run.emit_bind]
  rfl

/-- When the URL parses, the next two events of `main` are the print that
announces the creation and the creation itself, both with the container name
built from the first call of `randomString`. -/
theorem main_creates_containerName (env : Env)
    (hurl : env.urlParse (str "https://" ++ str "" ++ str ".blob.core.windows.net/" ++
      (str "quickstart-" ++ randomString env.source env.now₁)) = none) :
    (main env).trace.take 4 =
      [.stdout (str "Azure blob storage quick start sample\n"),
        .stdout (str "containerName: " ++
          (str "quickstart-" ++ randomString env.source env.now₁) ++ str "\n"),
        .stdout (str "Creating a container named " ++
          (str "quickstart-" ++ randomString env.source env.now₁) ++ str "\n"),
        .containerCreate (str "quickstart-" ++ randomString env.source env.now₁)
          env.create] := by
  unfold main
  simp only [hurl, Print, Println, Run.emit_bind]
  rfl

/-- C9: for every clock value used as seed, `randomString` returns the decimal
text of a non-negative integer below 2^63 (the masked draw), that is 1 to 19
decimal digits without a sign and without a needless leading zero; the
container name is "quickstart-" followed by it, so it has 12 to 30 characters,
all lowercase letters, digits or the one hyphen of the prefix; and that name,
built from the first call of `randomString`, is the one every run of `main`
prints, the one it puts in the URL, announces and creates, and the only name
a container is ever created with. -/
theorem randomString_containerName (source : Int → Nat) (now : Int) :
    decimalValue (randomString source now) = source now % 2 ^ 63 ∧
    decimalValue (randomString source now) < 2 ^ 63 ∧
    1 ≤ (randomString source now).length ∧
    (randomString source now).length ≤ 19 ∧
    (∀ b ∈ randomString source now, isDigit b = true) ∧
    (randomString source now = [48] ∨
      ∃ b rest, randomString source now = b :: rest ∧ b ≠ 48) ∧
    12 ≤ (str "quickstart-" ++ randomString source now).length ∧
    (str "quickstart-" ++ randomString source now).length ≤ 30 ∧
    (∀ b ∈ str "quickstart-" ++ randomString source now,
      isLower b = true ∨ isDigit b = true ∨ b = 45) ∧
    (str "quickstart-" ++ randomString source now).count 45 = 1 ∧
    (∀ env : Env,
      (main env).trace.take 2 =
        [.stdout (str "Azure blob storage quick start sample\n"),
          .stdout (str "containerName: " ++
            (str "quickstart-" ++ randomString env.source env.now₁) ++ str "\n")] ∧
      (env.urlParse (str "https://" ++ str "" ++ str ".blob.core.windows.net/" ++
          (str "quickstart-" ++ randomString env.source env.now₁)) = none →
        (main env).trace.take 4 =
          [.stdout (str "Azure blob storage quick start sample\n"),
            .stdout (str "containerName: " ++
              (str "quickstart-" ++ randomString env.source env.now₁) ++ str "\n"),
            .stdout (str "Creating a container named " ++
              (str "quickstart-" ++ randomString env.source env.now₁) ++ str "\n"),
            .containerCreate (str "quickstart-" ++ randomString env.source env.now₁)
              env.create]) ∧
      ∀ ev ∈ (main env).trace, ∀ name err,
        ev = Event.containerCreate name err →
          name = str "quickstart-" ++ randomString env.source env.now₁) := by
  have hlt : source now % 2 ^ 63 < 2 ^ 63 := Nat.mod_lt _ (by norm_num)
  have hval := decimalValue_formatDecimal (source now % 2 ^ 63 + 1) (source now % 2 ^ 63)
    (Nat.lt_succ_self _)
  have hdig := formatDecimal_digits (source now % 2 ^ 63 + 1) (source now % 2 ^ 63)
  have hlen := formatDecimal_length_le (source now % 2 ^ 63 + 1) (source now % 2 ^ 63) 19
    (by norm_num) (lt_trans hlt (by norm_num))
  have hpos := formatDecimal_length_pos (source now % 2 ^ 63) (source now % 2 ^ 63)
  have hhead := formatDecimal_head (source now % 2 ^ 63 + 1) (source now % 2 ^ 63)
    (Nat.lt_succ_self _)
  have hpre : (str "quickstart-").length = 11 := by decide
  rw [randomString_eq]
  refine ⟨hval, by rw [hval]; exact hlt, hpos, hlen, hdig, hhead, ?_, ?_, ?_, ?_, ?_⟩
  · rw [List.length_append, hpre]; omega
  · rw [List.length_append, hpre]; omega
  · intro b hb
    rcases List.mem_append.mp hb with h | h
    · have : ∀ c ∈ str "quickstart-", isLower c = true ∨ isDigit c = true ∨ c = 45 := by
        decide
      exact this b h
    · exact Or.inr (Or.inl (hdig b h))
  · rw [List.count_append]
    have h1 : (str "quickstart-").count 45 = 1 := by decide
    have h2 : (formatDecimal (source now % 2 ^ 63 + 1) (source now % 2 ^ 63) []).count 45
        = 0 := by
      rw [List.count_eq_zero]
      intro hmem
      have := hdig 45 hmem
      revert this
      decide
    rw [h1, h2]
  · intro env
    refine ⟨main_prints_containerName env, main_creates_containerName env, ?_⟩
    apply main_events env
    · intro t name err h; cases h
    · intro e name err h; cases h
    · intro ev err hstep
      rcases hstep with ⟨h, _⟩ | ⟨h, _⟩ | ⟨h, _⟩ | ⟨h, _⟩ | ⟨_, h⟩ | ⟨h, _⟩ <;> subst h <;>
        (intro name err' h; cases h <;> rfl)
    · intro line failed name err h; cases h
    · intro ev hev
      simp [cleanupEvents] at hev
      rcases hev with h | h | h | h <;> subst h <;> (intro name err h; cases h)

/-- C9, at a draw of 2^64 - 1, which the mask turns into 2^63 - 1 (19 digits),
and at the run in which every call succeeds, where the draw is 42 and `main`
prints, announces and creates "quickstart-42". -/
theorem randomString_containerName_witness :
    decimalValue (randomString (fun _ => 2 ^ 64 - 1) 0) = (2 ^ 64 - 1) % 2 ^ 63 ∧
    (randomString (fun _ => 2 ^ 64 - 1) 0).length ≤ 19 ∧
    (str "quickstart-" ++ randomString (fun _ => 2 ^ 64 - 1) 0).length ≤ 30 ∧
    str "quickstart-" ++ randomString envOk.source envOk.now₁ = str "quickstart-42" ∧
    (main envOk).trace.take 4 =
      [.stdout (str "Azure blob storage quick start sample\n"),
        .stdout (str "containerName: " ++
          (str "quickstart-" ++ randomString envOk.source envOk.now₁) ++ str "\n"),
        .stdout (str "Creating a container named " ++
          (str "quickstart-" ++ randomString envOk.source envOk.now₁) ++ str "\n"),
        .containerCreate (str "quickstart-" ++ randomString envOk.source envOk.now₁)
          envOk.create] :=
  ⟨(randomString_containerName (fun _ => 2 ^ 64 - 1) 0).1,
    (randomString_containerName (fun _ => 2 ^ 64 - 1) 0).2.2.2.1,
    (randomString_containerName (fun _ => 2 ^ 64 - 1) 0).2.2.2.2.2.2.2.1,
    by decide,
    ((randomString_containerName envOk.source envOk.now₁).2.2.2.2.2.2.2.2.2.2 envOk).2.1 rfl⟩

end BlobStorage

namespace BlobStorage

/-- The run of `main` when the URL parses and container creation, file write,
file open and upload return no error and the listing completes. -/
theorem main_success_run (env : Env)
    (hurl : env.urlParse (rawURL env) = none) (hcreate : env.create = none)
    (hwrite : env.writeFile = none) (hopen : env.openFile = none)
    (hupload : env.upload = none)
    (hlist : (listLoop none env.listing).returned = true) :
    main env =
      ⟨[.stdout (str "Azure blob storage quick start sample\n"),
        .stdout (str "containerName: " ++ containerName env ++ str "\n"),
        .stdout (str "Creating a container named " ++ containerName env ++ str "\n"),
        .containerCreate (containerName env) none,
        .stdout (str "Creating a dummy file to test the upload and download\n"),
        .writeFile (fileName env) data 0o700 none,
        .openFile (fileName env) none,
        .stdout (str "Uploading the file with blob name: " ++ fileName env ++ str "\n"),
        .upload (fileName env) data (4 * 1024 * 1024) 16 none] ++
        ((listLoop none env.listing).trace ++
          (emit (.download (fileName env) (env.download (some data)).1
              (env.download (some data)).2) >>= fun _ =>
            handleErrors (env.download (some data)).2 >>= fun _ =>
            Print (Printf0 env.verbs
              (str "Downloaded the blob: " ++ (env.download (some data)).1)) >>= fun _ =>
            Print (str ("Press enter key to delete the sample files, example container, "
              ++ "and exit the application. \n")) >>= fun _ =>
            readBytes env.stdin >>= fun _ =>
            cleanup env (containerName env) (fileName env)).trace),
        (emit (.download (fileName env) (env.download (some data)).1
              (env.download (some data)).2) >>= fun _ =>
            handleErrors (env.download (some data)).2 >>= fun _ =>
            Print (Printf0 env.verbs
              (str "Downloaded the blob: " ++ (env.download (some data)).1)) >>= fun _ =>
            Print (str ("Press enter key to delete the sample files, example container, "
              ++ "and exit the application. \n")) >>= fun _ =>
            readBytes env.stdin >>= fun _ =>
            cleanup env (containerName env) (fileName env)).val⟩ := by
  have hl : (listLoop none env.listing).val = .ok () := by
    unfold Run.returned at hlist
    split at hlist
    · rename_i u hu; exact hu
    · cases hlist
  unfold rawURL containerName at hurl
  unfold main
  simp only [hurl, hcreate, hwrite, hopen, hupload, Option.map_none', Print, Println,
    Run.emit_bind, step_run_none, Option.isNone_none, if_true]
  rw [Run.bind_of_ok hl]
  rfl

end BlobStorage

namespace BlobStorage

/-- C4: in every run in which the URL parses, container creation, file write,
file open and upload succeed, the listing completes, and the download succeeds
and returns the bytes the upload stored, the bytes read into the download
buffer are the content written to the local sample file, and the text printed
next is exactly "Downloaded the blob: " followed by those bytes. -/
theorem download_round_trip (env : Env)
    (hurl : env.urlParse (rawURL env) = none) (hcreate : env.create = none)
    (hwrite : env.writeFile = none) (hopen : env.openFile = none)
    (hupload : env.upload = none)
    (hlist : (listLoop none env.listing).returned = true)
    (hdl_ok : (env.download (some data)).2 = none)
    (hdl : (env.download (some data)).1 = data) :
    ∃ post, (main env).trace =
      [.stdout (str "Azure blob storage quick start sample\n"),
        .stdout (str "containerName: " ++ containerName env ++ str "\n"),
        .stdout (str "Creating a container named " ++ containerName env ++ str "\n"),
        .containerCreate (containerName env) none,
        .stdout (str "Creating a dummy file to test the upload and download\n"),
        .writeFile (fileName env) data 0o700 none,
        .openFile (fileName env) none,
        .stdout (str "Uploading the file with blob name: " ++ fileName env ++ str "\n"),
        .upload (fileName env) data (4 * 1024 * 1024) 16 none] ++
      ((listLoop none env.listing).trace ++
        (.download (fileName env) data none ::
          .stdout (str "Downloaded the blob: " ++ data) :: post)) := by
  have hfmt : Printf0 env.verbs (str "Downloaded the blob: " ++ data) =
      str "Downloaded the blob: " ++ data := by
    unfold Printf0
    rw [if_neg (by decide)]
  rw [main_success_run env hurl hcreate hwrite hopen hupload hlist, hdl_ok, hdl, hfmt]
  simp only [Print, step_run_none, Run.emit_bind]
  exact ⟨_, rfl⟩

/-- C4, at the run in which every call succeeds. -/
theorem download_round_trip_witness :
    ∃ post, (main envOk).trace =
      [.stdout (str "Azure blob storage quick start sample\n"),
        .stdout (str "containerName: " ++ containerName envOk ++ str "\n"),
        .stdout (str "Creating a container named " ++ containerName envOk ++ str "\n"),
        .containerCreate (containerName envOk) none,
        .stdout (str "Creating a dummy file to test the upload and download\n"),
        .writeFile (fileName envOk) data 0o700 none,
        .openFile (fileName envOk) none,
        .stdout (str "Uploading the file with blob name: " ++ fileName envOk ++ str "\n"),
        .upload (fileName envOk) data (4 * 1024 * 1024) 16 none] ++
      ((listLoop none envOk.listing).trace ++
        (.download (fileName envOk) data none ::
          .stdout (str "Downloaded the blob: " ++ data) :: post)) :=
  download_round_trip envOk rfl rfl rfl rfl rfl (by decide) rfl rfl

/-- C7, as stated: with standard input at its end, the three clean-up calls are
issued although no read returned a line ended by a newline. -/
theorem cleanup_without_newline :
    (main envStdinClosed).trace.any Event.readsLine = false ∧
    Event.containerDelete (containerName envStdinClosed) none ∈ (main envStdinClosed).trace ∧
    Event.fileClose none ∈ (main envStdinClosed).trace ∧
    Event.fileRemove (fileName envStdinClosed) none ∈ (main envStdinClosed).trace := by
  decide

/-- C7, amended: in every run, a container delete, file close or file removal
is issued only after the read from standard input has returned, either with a
line ended by a newline or, at the end of input, with a failure and the bytes
before it. -/
theorem cleanup_waits_for_stdin (env : Env) (pre : List Event) (ev : Event)
    (post : List Event) (h : (main env).trace = pre ++ ev :: post)
    (hc : ev.isCleanup = true) :
    ∃ line failed, Event.stdinRead line failed ∈ pre ∧
      (failed = false → line.getLast? = some 10) ∧
      (failed = true → (10 : UInt8) ∉ line ∧ env.stdin.closed = true) := by
  obtain ⟨work, hw, hshape⟩ := main_shape env
  rcases hshape with hs | ⟨line, failed, hs, _, h1, h2⟩
  · have hmem : ev ∈ work := by
      rw [← hs, h]; simp
    rw [(hw ev hmem).1] at hc
    cases hc
  · refine ⟨line, failed, ?_, h1, h2⟩
    rw [h] at hs
    rcases List.append_eq_append_iff.mp hs with ⟨a, ha, hb⟩ | ⟨c, hc1, hc2⟩
    · exfalso
      rcases List.cons_eq_append_iff.mp hb with ⟨_, hb0⟩ | ⟨a', ha', _⟩
      · injection hb0 with h3 _
        rw [← h3] at hc
        cases hc
      · have hmem : ev ∈ work := by rw [ha, ha']; simp
        rw [(hw ev hmem).1] at hc
        cases hc
    · rcases List.cons_eq_append_iff.mp hc2 with ⟨_, hc0⟩ | ⟨c', hc', _⟩
      · exfalso
        injection hc0 with h3 _
        rw [h3] at hc
        cases hc
      · rw [hc1, hc']
        simp

/-- C7, amended, at the run in which Enter is pressed. -/
theorem cleanup_waits_for_stdin_witness :
    ∃ line failed, Event.stdinRead line failed ∈
        (main envOk).trace.take ((main envOk).trace.length - 3) ∧
      (failed = false → line.getLast? = some 10) ∧
      (failed = true → (10 : UInt8) ∉ line ∧ envOk.stdin.closed = true) :=
  cleanup_waits_for_stdin envOk ((main envOk).trace.take ((main envOk).trace.length - 3))
    (Event.containerDelete (containerName envOk) none)
    [Event.fileClose none, Event.fileRemove (fileName envOk) none] (by decide) rfl

end BlobStorage

namespace BlobStorage

/-- C8: clean-up is best-effort.  For every combination of results of the
container delete, the file close and the file removal, the clean-up block
issues all three, in that order, and returns; and in every run of `main` in
which the read from standard input returned, the trace ends with that block,
`main` returns normally and no fatal log is issued. -/
theorem cleanup_is_best_effort (env : Env) :
    (∀ d c r : Option GoError,
      cleanup { env with delete := d, close := c, remove := r } (containerName env)
        (fileName env) =
        ⟨[.stdout (str "Cleaning up.\n"), .containerDelete (containerName env) d,
          .fileClose c, .fileRemove (fileName env) r], .ok ()⟩) ∧
    (∀ line failed, Event.stdinRead line failed ∈ (main env).trace →
      (∃ pre, (main env).trace = pre ++
          [.stdout (str "Cleaning up.\n"), .containerDelete (containerName env) env.delete,
            .fileClose env.close, .fileRemove (fileName env) env.remove] ∧
        ∀ ev ∈ pre, ev.isCleanup = false) ∧
      (main env).returned = true ∧
      ∀ ev ∈ (main env).trace, ev.isFatalLog = false) := by
  refine ⟨fun d c r => rfl, ?_⟩
  intro line failed hmem
  obtain ⟨work, hw, hshape⟩ := main_shape env
  rcases hshape with hs | ⟨line', failed', hs, hval, _, _⟩
  · rw [hs] at hmem
    have := (hw _ hmem).2
    cases this
  · refine ⟨⟨work ++ [.stdinRead line' failed'], ?_, ?_⟩, ?_, ?_⟩
    · rw [hs]
      simp [cleanupEvents]
    · intro ev hev
      rcases List.mem_append.mp hev with h | h
      · exact (hw ev h).1
      · simp at h
        subst h
        rfl
    · unfold Run.returned
      rw [hval]
    · intro ev hev
      cases hf : ev.isFatalLog with
      | false => rfl
      | true =>
        have := main_fatalLog env ev hev hf
        rw [hval] at this
        cases this

/-- C8, at the run in which all three clean-up calls fail. -/
theorem cleanup_is_best_effort_witness :
    (∃ pre, (main envCleanupFails).trace = pre ++
        [.stdout (str "Cleaning up.\n"),
          .containerDelete (containerName envCleanupFails) envCleanupFails.delete,
          .fileClose envCleanupFails.close,
          .fileRemove (fileName envCleanupFails) envCleanupFails.remove] ∧
      ∀ ev ∈ pre, ev.isCleanup = false) ∧
    (main envCleanupFails).returned = true ∧
    ∀ ev ∈ (main envCleanupFails).trace, ev.isFatalLog = false :=
  (cleanup_is_best_effort envCleanupFails).2 (str "\n") false (by decide)

/-- C10: clean-up is not performed on a fatal exit.  In every run in which a
step followed by `handleErrors` returned an error that `handleErrors` treats
as fatal, and in every run that does not end by `main` returning, no container
delete, file close or file removal is issued; a clean-up call is issued only in
runs that return normally, without any fatal log and in which every step
returned no error or the benign one. -/
theorem no_cleanup_after_fatal (env : Env) :
    (∀ (pre : List Event) (ev : Event) (post : List Event) (e : GoError),
      (main env).trace = pre ++ ev :: post → ev.stepError = some e → benign e = false →
      (main env).halted .fatal = true ∧ ∀ ev' ∈ (main env).trace, ev'.isCleanup = false) ∧
    ((main env).returned = false → ∀ ev' ∈ (main env).trace, ev'.isCleanup = false) ∧
    (∀ ev ∈ (main env).trace, ev.isCleanup = true →
      (main env).returned = true ∧
      (∀ ev' ∈ (main env).trace, ev'.isFatalLog = false) ∧
      ∀ ev' ∈ (main env).trace, ∀ e, ev'.stepError = some e → benign e = true) := by
  obtain ⟨work, hw, hshape⟩ := main_shape env
  have hnot : (main env).returned = false → ∀ ev' ∈ (main env).trace, ev'.isCleanup = false := by
    intro hret ev' hev'
    rcases hshape with hs | ⟨line, failed, _, hval, _, _⟩
    · rw [hs] at hev'
      exact (hw ev' hev').1
    · unfold Run.returned at hret
      rw [hval] at hret
      cases hret
  refine ⟨?_, hnot, ?_⟩
  · intro pre ev post e ht hs hb
    have hval := (main_fatal_stops env pre ev post e ht hs hb).2
    have hret : (main env).returned = false := by
      unfold Run.returned
      rw [hval]
    refine ⟨?_, hnot hret⟩
    unfold Run.halted
    rw [hval]
    rfl
  · intro ev hev hc
    have hret : (main env).returned = true := by
      cases hr : (main env).returned with
      | true => rfl
      | false =>
        have := hnot hr ev hev
        rw [this] at hc
        cases hc
    have hval : (main env).val = .ok () := by
      unfold Run.returned at hret
      split at hret
      · rename_i u hu; exact hu
      · cases hret
    refine ⟨hret, ?_, ?_⟩
    · intro ev' hev'
      cases hf : ev'.isFatalLog with
      | false => rfl
      | true =>
        have := main_fatalLog env ev' hev' hf
        rw [hval] at this
        cases this
    · intro ev' hev' e hs
      cases hb : benign e with
      | true => rfl
      | false =>
        obtain ⟨pre, post, ht⟩ := List.append_of_mem hev'
        have := (main_fatal_stops env pre ev' post e ht hs hb).2
        rw [hval] at this
        cases this

/-- C10, at the run in which the upload fails with a network error. -/
theorem no_cleanup_after_fatal_witness :
    (main envUploadFails).halted .fatal = true ∧
    ∀ ev' ∈ (main envUploadFails).trace, ev'.isCleanup = false :=
  (no_cleanup_after_fatal envUploadFails).1
    ((main envUploadFails).trace.take 8)
    (Event.upload (fileName envUploadFails) data (4 * 1024 * 1024) 16
      (some (.plain (str "connection reset"))))
    [Event.fatalLog (.plain (str "connection reset"))]
    (.plain (str "connection reset")) (by decide) rfl (by decide)

end BlobStorage

namespace TableStorage

/-- When the client cannot be constructed, the error is printed on standard
output and the nil client is used. -/
theorem main_client_failure (env : Env) (e : GoError)
    (h : env.newBasicClient STORAGE_ACCOUNT_NAME STORAGE_ACCOUNT_ACCESS_KEY = some e) :
    main env = ⟨[.stdout (e.Error ++ str "\n")], .error .panic⟩ := by
  unfold main newClient
  rw [h]
  rfl

/-- When the fetch fails, the error is printed on standard output and the
property is read all the same. -/
theorem main_get_failure (env : Env) (e : GoError)
    (hc : env.newBasicClient STORAGE_ACCOUNT_NAME STORAGE_ACCOUNT_ACCESS_KEY = none)
    (h : env.get [str "one property"] = .error e) :
    main env = ⟨[.entityGet TABLE_NAME (str "PartitionKey") (str "RowKey") 30
      [str "one property"] (some e), .stdout (e.Error ++ str "\n")], .error .panic⟩ := by
  unfold main newClient
  rw [hc]
  simp only [h]
  rfl

end TableStorage

namespace BlobStorage

/-- C2, as stated: a failure to parse the container URL ends the blob workflow
by a normal return with no fatal log, and in the table workflow a failure to
construct the client or to fetch the entity is printed on standard output and
is not followed by a fatal log. -/
theorem urlParse_failure_is_not_fatal :
    (main envUrlFails).returned = true ∧
    (main envUrlFails).trace.any Event.isFatalLog = false ∧
    (main envUrlFails).trace =
      [.stdout (str "Azure blob storage quick start sample\n"),
        .stdout (str "containerName: quickstart-42\n"),
        .stdout (str "parse error\n")] ∧
    (TableStorage.main TableStorage.envNoClient).trace =
      [.stdout (str "azure: account name required\n")] ∧
    (TableStorage.main TableStorage.envNoClient).halted .fatal = false ∧
    (TableStorage.main TableStorage.envGetFails).trace =
      [.entityGet TableStorage.TABLE_NAME (str "PartitionKey") (str "RowKey") 30
        [str "one property"] (some (.plain (str "request timed out"))),
        .stdout (str "request timed out\n")] ∧
    (TableStorage.main TableStorage.envGetFails).halted .fatal = false := by
  decide

/-- C2, amended: in the blob workflow, every error returned by container
creation, file write, file open, upload, a list call or the download that is
not the container-already-exists service error is followed by the fatal log
and by nothing else, and the process ends there; a failure to parse the
container URL is printed on standard output and `main` returns normally with
no later step; in the table workflow a failure to construct the client or to
fetch the entity is printed on standard output and no fatal log is issued. -/
theorem fatal_error_ends_blob_workflow :
    (∀ (env : Env) (pre : List Event) (ev : Event) (post : List Event) (e : GoError),
      (main env).trace = pre ++ ev :: post → ev.stepError = some e → benign e = false →
      post = [.fatalLog e] ∧ (main env).halted .fatal = true) ∧
    (∀ (env : Env) (e : GoError), env.urlParse (rawURL env) = some e →
      (main env).trace =
        [.stdout (str "Azure blob storage quick start sample\n"),
          .stdout (str "containerName: " ++ containerName env ++ str "\n"),
          .stdout (e.Error ++ str "\n")] ∧
      (main env).returned = true) ∧
    (∀ (env : TableStorage.Env) (e : GoError),
      env.newBasicClient TableStorage.STORAGE_ACCOUNT_NAME
        TableStorage.STORAGE_ACCOUNT_ACCESS_KEY = some e →
      (TableStorage.main env).trace.head? = some (.stdout (e.Error ++ str "\n")) ∧
      (TableStorage.main env).halted .fatal = false) ∧
    (∀ (env : TableStorage.Env) (e : GoError),
      env.newBasicClient TableStorage.STORAGE_ACCOUNT_NAME
        TableStorage.STORAGE_ACCOUNT_ACCESS_KEY = none →
      env.get [str "one property"] = .error e →
      (TableStorage.main env).trace.take 2 =
        [.entityGet TableStorage.TABLE_NAME (str "PartitionKey") (str "RowKey") 30
          [str "one property"] (some e), .stdout (e.Error ++ str "\n")] ∧
      (TableStorage.main env).halted .fatal = false) := by
  refine ⟨?_, ?_, ?_, ?_⟩
  · intro env pre ev post e ht hs hb
    obtain ⟨h1, h2⟩ := main_fatal_stops env pre ev post e ht hs hb
    refine ⟨h1, ?_⟩
    unfold Run.halted
    rw [h2]
    rfl
  · intro env e h
    unfold rawURL containerName at h
    have hmain : main env = ⟨[.stdout (str "Azure blob storage quick start sample\n"),
        .stdout (str "containerName: " ++ containerName env ++ str "\n"),
        .stdout (e.Error ++ str "\n")], .ok ()⟩ := by
      unfold main
      simp only [h, Print, Println, Run.emit_bind]
      rfl
    rw [hmain]
    exact ⟨rfl, rfl⟩
  · intro env e h
    rw [TableStorage.main_client_failure env e h]
    exact ⟨rfl, rfl⟩
  · intro env e hc h
    rw [TableStorage.main_get_failure env e hc h]
    exact ⟨rfl, rfl⟩

/-- C2, amended, at the run in which the upload fails with a network error. -/
theorem fatal_error_ends_blob_workflow_witness :
    [Event.fatalLog (.plain (str "connection reset"))] =
      [Event.fatalLog (.plain (str "connection reset"))] ∧
    (main envUploadFails).halted .fatal = true :=
  fatal_error_ends_blob_workflow.1 envUploadFails
    ((main envUploadFails).trace.take 8)
    (Event.upload (fileName envUploadFails) data (4 * 1024 * 1024) 16
      (some (.plain (str "connection reset"))))
    [Event.fatalLog (.plain (str "connection reset"))]
    (.plain (str "connection reset")) (by decide) rfl (by decide)

end BlobStorage
